import Mathlib

/-!
Shallow embedding of the rjeczalik/gh webhook server (package `webhook`,
src/webhook/webhook.go) and of its template script engine (package `tsc`,
src/unnamed/part_004), together with the SHA-256 and HMAC-SHA256
primitives from Go's standard library (crypto/sha256, crypto/hmac) that
`ServeHTTP` uses for signature verification.

Bytes are modelled as `Nat` values below 256, 32-bit words as `Nat`
reduced modulo `2 ^ 32` (`w32`).
-/

namespace GoCrypto

/-- Reduce to a 32-bit word, as Go uint32 arithmetic does. -/
def w32 (x : Nat) : Nat := x % 4294967296

/-- 32-bit right rotation by `n` (for `0 < n < 32`):
`x >>> n ||| x <<< (32 - n)` on uint32; the two parts do not overlap,
so the bitwise or is addition. -/
def rotr32 (n x : Nat) : Nat := w32 (x / 2 ^ n + x % 2 ^ n * 2 ^ (32 - n))

/-- 32-bit logical right shift. -/
def shr32 (n x : Nat) : Nat := x / 2 ^ n

/-- SHA-256 Ch function: `(x & y) ^ (~x & z)` on uint32. -/
def ch (x y z : Nat) : Nat := (x &&& y) ^^^ ((x ^^^ 4294967295) &&& z)

/-- SHA-256 Maj function. -/
def maj (x y z : Nat) : Nat := (x &&& y) ^^^ (x &&& z) ^^^ (y &&& z)

/-- SHA-256 big Sigma0. -/
def bigSigma0 (x : Nat) : Nat := rotr32 2 x ^^^ rotr32 13 x ^^^ rotr32 22 x

/-- SHA-256 big Sigma1. -/
def bigSigma1 (x : Nat) : Nat := rotr32 6 x ^^^ rotr32 11 x ^^^ rotr32 25 x

/-- SHA-256 small sigma0. -/
def smallSigma0 (x : Nat) : Nat := rotr32 7 x ^^^ rotr32 18 x ^^^ shr32 3 x

/-- SHA-256 small sigma1. -/
def smallSigma1 (x : Nat) : Nat := rotr32 17 x ^^^ rotr32 19 x ^^^ shr32 10 x

/-- The 64 SHA-256 round constants (FIPS 180-4). -/
def shaK : List Nat :=
  [1116352408, 1899447441, 3049323471, 3921009573, 961987163,
   1508970993, 2453635748, 2870763221, 3624381080, 310598401,
   607225278, 1426881987, 1925078388, 2162078206, 2614888103,
   3248222580, 3835390401, 4022224774, 264347078, 604807628,
   770255983, 1249150122, 1555081692, 1996064986, 2554220882,
   2821834349, 2952996808, 3210313671, 3336571891, 3584528711,
   113926993, 338241895, 666307205, 773529912, 1294757372,
   1396182291, 1695183700, 1986661051, 2177026350, 2456956037,
   2730485921, 2820302411, 3259730800, 3345764771, 3516065817,
   3600352804, 4094571909, 275423344, 430227734, 506948616,
   659060556, 883997877, 958139571, 1322822218, 1537002063,
   1747873779, 1955562222, 2024104815, 2227730452, 2361852424,
   2428436474, 2756734187, 3204031479, 3329325298]

/-- The eight working variables of the SHA-256 compression function. -/
structure ShaState where
  a : Nat
  b : Nat
  c : Nat
  d : Nat
  e : Nat
  f : Nat
  g : Nat
  h : Nat
  deriving Repr, DecidableEq

/-- SHA-256 initial hash value (FIPS 180-4). -/
def initState : ShaState :=
  ⟨1779033703, 3144134277, 1013904242, 2773480762, 1359893119, 2600822924, 528734635, 1541459225⟩

/-- One SHA-256 round, consuming a pair of round constant and schedule word. -/
def roundStep (s : ShaState) (kw : Nat × Nat) : ShaState :=
  let t1 := w32 (s.h + bigSigma1 s.e + ch s.e s.f s.g + kw.1 + kw.2)
  let t2 := w32 (bigSigma0 s.a + maj s.a s.b s.c)
  ⟨w32 (t1 + t2), s.a, s.b, s.c, w32 (s.d + t1), s.e, s.f, s.g⟩

/-- Big-endian 32-bit word from 4 bytes of a 64-byte block. -/
def wordAt (block : List Nat) (i : Nat) : Nat :=
  block.getD (4 * i) 0 * 16777216 + block.getD (4 * i + 1) 0 * 65536 +
    block.getD (4 * i + 2) 0 * 256 + block.getD (4 * i + 3) 0

/-- Extend the 16 message words to the 64-entry message schedule. -/
def schedule (ws : List Nat) : List Nat :=
  (List.range 48).foldl (fun acc _ =>
    acc ++ [w32 (smallSigma1 (acc.getD (acc.length - 2) 0) + acc.getD (acc.length - 7) 0 +
      smallSigma0 (acc.getD (acc.length - 15) 0) + acc.getD (acc.length - 16) 0)]) ws

/-- SHA-256 compression of one 64-byte block. -/
def processBlock (s : ShaState) (block : List Nat) : ShaState :=
  let ws := schedule ((List.range 16).map (wordAt block))
  let t := (shaK.zip ws).foldl roundStep s
  ⟨w32 (s.a + t.a), w32 (s.b + t.b), w32 (s.c + t.c), w32 (s.d + t.d),
   w32 (s.e + t.e), w32 (s.f + t.f), w32 (s.g + t.g), w32 (s.h + t.h)⟩

/-- Serialize a 32-bit word to 4 big-endian bytes. -/
def be32 (x : Nat) : List Nat := [x / 16777216 % 256, x / 65536 % 256, x / 256 % 256, x % 256]

/-- Serialize a length (in bits) to 8 big-endian bytes. -/
def be64 (x : Nat) : List Nat :=
  [x / 2 ^ 56 % 256, x / 2 ^ 48 % 256, x / 2 ^ 40 % 256, x / 2 ^ 32 % 256,
   x / 2 ^ 24 % 256, x / 2 ^ 16 % 256, x / 2 ^ 8 % 256, x % 256]

/-- SHA-256 padding: a 0x80 byte, zeros up to 56 mod 64, then the bit
length as a 64-bit big-endian integer. -/
def sha256Pad (msg : List Nat) : List Nat :=
  msg ++ 128 :: (List.replicate ((119 - msg.length % 64) % 64) 0 ++ be64 (8 * msg.length))

/-- SHA-256 of a byte sequence, as Go's crypto/sha256 computes it. -/
def sha256 (msg : List Nat) : List Nat :=
  let padded := sha256Pad msg
  let final := (List.range (padded.length / 64)).foldl
    (fun s i => processBlock s ((padded.drop (64 * i)).take 64)) initState
  be32 final.a ++ be32 final.b ++ be32 final.c ++ be32 final.d ++
    be32 final.e ++ be32 final.f ++ be32 final.g ++ be32 final.h

/-- HMAC key preprocessing from Go's crypto/hmac: keys longer than the
64-byte SHA-256 block are hashed first, then the key is zero-padded to
the block size. -/
def padKey (key : List Nat) : List Nat :=
  let k0 := if key.length > 64 then sha256 key else key
  k0 ++ List.replicate (64 - k0.length) 0

/-- HMAC-SHA256 as computed by Go's crypto/hmac over crypto/sha256. -/
def hmacSha256 (key msg : List Nat) : List Nat :=
  sha256 (List.map (fun b => b ^^^ 92) (padKey key) ++
    sha256 (List.map (fun b => b ^^^ 54) (padKey key) ++ msg))

end GoCrypto

namespace Webhook

open GoCrypto

/-- Signing a body with a secret, as GitHub does and as `ServeHTTP`
recomputes it: `hmac.New(sha256.New, h.secret); mac.Write(body);
mac.Sum(nil)`. -/
def sign (secret body : List Nat) : List Nat := hmacSha256 secret body

/-- Signature verification as `ServeHTTP` performs it:
`hmac.Equal(mac.Sum(nil), sig)`, i.e. byte-for-byte equality of the raw
digest against the raw signature-header bytes (lengths included); no
prefix stripping, no hex decoding. -/
def verify (secret sig body : List Nat) : Bool := hmacSha256 secret body == sig

/-- Fragment of Go's reflect.Type needed by `payloadMethods`: pointers,
the string kind, the empty interface, and named (struct) payload types
identified by name. -/
inductive GoType where
  | ptr (elem : GoType)
  | str
  | iface
  | named (id : String)
  deriving Repr, DecidableEq

/-- Rendering of a type for the panic message, mirroring `%v` of a
reflect.Type. -/
def fmtGoType : GoType → String
  | .ptr e => "*" ++ fmtGoType e
  | .str => "string"
  | .iface => "interface \x7b\x7d"
  | .named id => id

/-- A method of the handler receiver as `reflect` reports it: name,
package path (empty iff exported), and the argument types with the
receiver excluded (Go's `NumIn` counts the receiver, so a 2-in method
has one entry here and a 3-in method has two). -/
structure GoMethod where
  name : String
  pkgPath : String
  args : List GoType
  deriving Repr, DecidableEq

/-- Association-list lookup keyed by string; the tables built by
`payloadMethods` have unique keys, so this models Go map indexing. -/
def lookupStr (k : String) : List (String × α) → Option α
  | [] => none
  | p :: rest => if p.1 = k then some p.2 else lookupStr k rest

/-- The routing-table construction loop of `payloadMethods`
(src/webhook/webhook.go:143-184), parameterised by the generated
registry direction `payloads.Name : reflect.Type → (string, bool)`,
modelled as `nameOf : GoType → Option String`. Go's `panic` on a
duplicate registration is modelled as `Except.error`; a method whose
shape matches neither handler form is skipped (`continue LoopMethods`
after a log line). -/
def payloadMethodsAux (nameOf : GoType → Option String) :
    List GoMethod → List (String × GoMethod) → Except String (List (String × GoMethod))
  | [], methods => .ok methods
  | m :: rest, methods =>
    if m.pkgPath ≠ "" then payloadMethodsAux nameOf rest methods
    else
      match m.args with
      | [eventType] =>
        match eventType with
        | .ptr elem =>
          match nameOf elem with
          | some event =>
            if (lookupStr event methods).isSome then
              .error ("there is more than one method handling " ++ fmtGoType (.ptr elem) ++ " event")
            else payloadMethodsAux nameOf rest (methods ++ [(event, m)])
          | none => payloadMethodsAux nameOf rest methods
        | _ => payloadMethodsAux nameOf rest methods
      | [in1, in2] =>
        if in1 = .str ∧ in2 = .iface then
          if (lookupStr "*" methods).isSome then
            .error "there is more than one method handling all events"
          else payloadMethodsAux nameOf rest (methods ++ [("*", m)])
        else payloadMethodsAux nameOf rest methods
      | _ => payloadMethodsAux nameOf rest methods

/-- `payloadMethods` run over the receiver's method list, starting from
the empty table. -/
def payloadMethods (nameOf : GoType → Option String) (ms : List GoMethod) :
    Except String (List (String × GoMethod)) :=
  payloadMethodsAux nameOf ms []

/-- The routing key an exported method claims, if any: a known payload
schema behind a pointer for the specific form, the reserved "*" for the
(string, interface\x7b\x7d) wildcard form. -/
def keyOf (nameOf : GoType → Option String) (m : GoMethod) : Option String :=
  if m.pkgPath ≠ "" then none
  else
    match m.args with
    | [.ptr elem] => nameOf elem
    | [in1, in2] => if in1 = .str ∧ in2 = .iface then some "*" else none
    | _ => none

/-- Observable effect of one dispatch: which method was invoked and with
which arguments, or the built-in ping log line. -/
inductive Inv (P : Type) where
  | specific (m : GoMethod) (p : P)
  | wildcard (m : GoMethod) (event : String) (p : P)
  | pingDefault
  deriving Repr, DecidableEq

/-- The `call` method (src/webhook/webhook.go:248-262): the table entry
for the event name is invoked with the payload alone; otherwise the "*"
entry is invoked with the event name and the payload; otherwise only the
"ping" event gets a built-in log line. -/
def call (table : List (String × GoMethod)) (event : String) (p : P) : List (Inv P) :=
  match lookupStr event table with
  | some m => [.specific m p]
  | none =>
    match lookupStr "*" table with
    | some m => [.wildcard m event p]
    | none => if event = "ping" then [.pingDefault] else []

/-- Outcome of the single `req.Body.Read(body)` call: end-of-stream or
another error. -/
inductive ReadErr where
  | eof
  | other (msg : String)
  deriving Repr, DecidableEq

/-- An inbound HTTP request as `ServeHTTP` observes it: method, the
X-GitHub-Event header, the raw bytes of the X-Hub-Signature header, the
declared ContentLength (Go int64), and the outcome of the one
`req.Body.Read` call into the ContentLength-sized buffer — the bytes it
returned (an io.Reader may return fewer than requested) and its error
value. -/
structure HRequest where
  method : String
  event : String
  sig : List Nat
  contentLength : Int
  readBytes : List Nat
  readErr : Option ReadErr
  deriving Repr, DecidableEq

/-- The collaborators `ServeHTTP` consults after verification: the
generated registry direction `payloads.Type : string → (reflect.Type,
bool)` and JSON decoding of the body into the resolved schema. -/
structure Env (S P : Type) where
  typeOf : String → Option S
  decode : S → List Nat → Option P

/-- `maxPayloadLen = 1024 * 1024 * 1024` (src/webhook/webhook.go:133). -/
def maxPayloadLen : Int := 1024 * 1024 * 1024

/-- The buffer contents after `body := make([]byte, int(req.ContentLength));
req.Body.Read(body)`: the bytes the read returned, zero-padded (Go slices
are zero-initialised) and truncated to the declared length. -/
def requestBody (req : HRequest) : List Nat :=
  (req.readBytes ++ List.replicate req.contentLength.toNat 0).take req.contentLength.toNat

/-- Stages 5-8 of `ServeHTTP` (signature verification, payload-type
resolution, JSON decoding, the 200 response paired with the launched
`go h.call` invocations). -/
def afterRead (secret : List Nat) (env : Env S P) (req : HRequest) : Nat × List (String × P) :=
  let body := requestBody req
  if ¬ verify secret req.sig body then (401, [])
  else
    match env.typeOf req.event with
    | none => (400, [])
    | some t =>
      match env.decode t body with
      | none => (400, [])
      | some p => (200, [(req.event, p)])

/-- Stage 4 of `ServeHTTP`: the body read; an error other than io.EOF is
a 500 rejection. -/
def afterLength (secret : List Nat) (env : Env S P) (req : HRequest) : Nat × List (String × P) :=
  match req.readErr with
  | some (.other _) => (500, [])
  | _ => afterRead secret env req

/-- `ServeHTTP` (src/webhook/webhook.go:208-246): the full request state
machine. The result is the HTTP status code paired with the list of
`go h.call(remote, event, payload)` launches (at most one). -/
def serveHTTP (secret : List Nat) (env : Env S P) (req : HRequest) : Nat × List (String × P) :=
  if req.method ≠ "POST" then (405, [])
  else if req.event = "" ∨ req.sig = [] then (400, [])
  else if req.contentLength ≤ 0 ∨ req.contentLength > maxPayloadLen then (400, [])
  else afterLength secret env req

end Webhook

namespace Tsc

/-- A parsed template script (src/unnamed/part_004, type `Script`):
the shell-mode flag chosen from the file suffix and the named-argument
map. Go's `map[string]string` built by insertion is modelled as the
insertion-ordered pair list; lookup takes the last insertion
(`lookupLast`). The parsed template and the log/output sinks are
environment collaborators and are not stored. -/
structure Script where
  bash : Bool
  args : List (String × String)
  deriving Repr, DecidableEq

/-- Lookup in an insertion-ordered map model: the value of the last
inserted pair with the given key, as a Go map holds after overwrites. -/
def lookupLast (pairs : List (String × String)) (k : String) : Option String :=
  Webhook.lookupStr k pairs.reverse

/-- Whether a flag name passes the checks of `New`
(src/unnamed/part_004:55-61): at least two bytes, leading '-', and
`utf8.DecodeRuneInString` of the remainder not returning
`utf8.RuneError`. Strings are modelled as their decoded character
sequences, on which the byte-length test coincides with the
character-length test for names that start with the one-byte '-', and
on which `DecodeRuneInString` yields `RuneError` exactly for a leading
replacement character U+FFFD. -/
def wfFlag (name : String) : Bool :=
  ¬ (name.length < 2 ∨ name.front ≠ '-') ∧ (name.drop 1).front ≠ '�'

/-- The map key derived from a well-formed flag name: strip the '-',
upper-case the first character with `unicode.ToUpper`, keep the rest.
The simple uppercase mapping `up` is Go's `unicode.ToUpper`, supplied at
the interface boundary like the payload registry and the template
engine: its full Unicode case table is an external standard-library
artifact, and on the ASCII letters exercised by the witnesses it is the
familiar a-z to A-Z map. -/
def flagKey (up : Char → Char) (name : String) : String :=
  String.singleton (up (name.drop 1).front) ++ name.drop 2

/-- The argument-parsing loop of `New` (src/unnamed/part_004:54-63),
rewritten from the indexed loop to two-at-a-time recursion; the map
inserts are collected in order; `up` is `unicode.ToUpper`. The
one-element case is unreachable behind the even-length guard of
`New`. -/
def parseArgs (up : Char → Char) : List String → Except String (List (String × String))
  | [] => .ok []
  | name :: value :: rest =>
    if name.length < 2 ∨ name.front ≠ '-' then .error ("invalid flag name: " ++ name)
    else if (name.drop 1).front = '�' then .error ("invalid flag name: " ++ name)
    else
      match parseArgs up rest with
      | .error e => .error e
      | .ok ps => .ok ((flagKey up name, value) :: ps)
  | [_] => .error "number of arguments for template script must be even"

/-- `strings.HasSuffix`, over the character sequences of the strings. -/
def hasSuffix (s t : String) : Bool :=
  decide (t.data.length ≤ s.data.length) &&
    (s.data.drop (s.data.length - t.data.length) == t.data)

/-- `New(file, args)` (src/unnamed/part_004:47-72): reject odd-length
argument lists, parse the flag pairs, and select shell mode from the
file suffix. Template parsing (`template.ParseFiles`) is an external
collaborator whose failure is not modelled; `up` is `unicode.ToUpper`. -/
def scriptNew (up : Char → Char) (file : String) (args : List String) : Except String Script :=
  if args.length % 2 = 1 then .error "number of arguments for template script must be even"
  else
    match parseArgs up args with
    | .error e => .error e
    | .ok ps => .ok { bash := hasSuffix file ".sh" || hasSuffix file ".bash", args := ps }

/-- Environment outcomes of one shell-mode execution: the result of
`cmd.Run()` (`none` is success), of `ioutil.TempFile("webhook",
"debug")` (the file name or an error), of `io.Copy` (`some (n, msg)`
means the copy wrote `n` bytes and failed with `msg`), and of
`f.Close()`. -/
structure ShellOutcome where
  runErr : Option String
  tmpFile : Except String String
  copyErr : Option (Nat × String)
  closeErr : Option String

/-- `runBash` (src/unnamed/part_004:91-117), with the template render
outcome supplied by the environment (`execute` delegates to
text/template, an external collaborator): render into the buffer, feed
it to bash, and on failure dump the buffer to a temp file, combining
errors exactly as `nonil` and the two `fmt.Errorf` formats do. Returns
the error result together with the files written. -/
def runBash (render : Except String (List Nat)) (out : ShellOutcome) :
    Except String Unit × List (String × List Nat) :=
  match render with
  | .error err => (.error err, [])
  | .ok buf =>
    match out.runErr with
    | none => (.ok (), [])
    | some err =>
      match out.tmpFile with
      | .error e => (.error (err ++ " (failed to dump script file: " ++ e ++ ")"), [])
      | .ok fname =>
        let written := match out.copyErr with
          | some pr => buf.take pr.1
          | none => buf
        let e := match out.copyErr with
          | some pr => some pr.2
          | none => out.closeErr
        match e with
        | some emsg => (.error (err ++ " (failed to dump script file: " ++ emsg ++ ")"), [(fname, written)])
        | none => (.error (fname ++ ": failed with: " ++ err), [(fname, written)])

/-- `Webhook` (src/unnamed/part_004:74-89), the `run` entry point: run
the script in its mode and log any error with the
"ERROR template script error: %v" format. It returns nothing to its
caller; the observable outcome is the list of log lines paired with the
files written. -/
def webhookRun (s : Script) (render : Except String (List Nat)) (out : ShellOutcome) :
    List String × List (String × List Nat) :=
  let r : Except String Unit × List (String × List Nat) :=
    if s.bash then runBash render out
    else
      match render with
      | .error e => (.error e, [])
      | .ok _ => (.ok (), [])
  match r.1 with
  | .error err => (["ERROR template script error: " ++ err], r.2)
  | .ok _ => ([], r.2)

end Tsc

namespace Webhook

/-- The panic message `payloadMethodsAux` produces when a second method
claims the key a previous method already took; it depends on which
branch detected the duplicate. -/
def dupMsg (m : GoMethod) : String :=
  match m.args with
  | [.ptr elem] => "there is more than one method handling " ++ fmtGoType (.ptr elem) ++ " event"
  | _ => "there is more than one method handling all events"

end Webhook

namespace Tsc

/-- The elements of the argument list at even indices: the flag names. -/
def evenNames : List String → List String
  | [] => []
  | n :: _ :: rest => n :: evenNames rest
  | [n] => [n]

/-- The map entries an even-length, well-formed argument list produces,
in insertion order; `up` is `unicode.ToUpper`. -/
def pairsOf (up : Char → Char) : List String → List (String × String)
  | [] => []
  | n :: v :: rest => (flagKey up n, v) :: pairsOf up rest
  | [_] => []

end Tsc

section Fixtures

open Webhook GoCrypto

/-- Concrete registry direction for witnesses: the generated
payloads.go table restricted to two events. -/
def nameOfW : GoType → Option String := fun t =>
  if t = .named "PushEvent" then some "push"
  else if t = .named "PingEvent" then some "ping" else none

/-- Witness environment: registry/type lookup and JSON decoding on two
concrete bodies. -/
def envW : Env String Nat :=
  ⟨fun e => if e = "push" then some "PushEvent" else none,
   fun _ b => if b = [5] then some 42 else if b = [1, 0] then some 7 else none⟩

/-- Specific push handler method, as reflect reports it. -/
def mPush : GoMethod := ⟨"Push", "", [.ptr (.named "PushEvent")]⟩

/-- A second method also taking *PushEvent. -/
def mPush2 : GoMethod := ⟨"Deploy", "", [.ptr (.named "PushEvent")]⟩

/-- Wildcard handler method (string, interface\x7b\x7d). -/
def mAll : GoMethod := ⟨"All", "", [.str, .iface]⟩

/-- An exported method matching neither handler shape (one non-pointer
argument). -/
def mBad : GoMethod := ⟨"Bad", "", [.str]⟩

/-- Witness request for the accepted path: signed body [5], fully read. -/
def rq2 : HRequest := ⟨"POST", "push", hmacSha256 [7] [5], 1, [5], none⟩

/-- Witness request with a signature that matches no digest (wrong
length). -/
def rq3 : HRequest := ⟨"POST", "push", [0], 1, [5], none⟩

/-- Failing input for the body-read claim: declared length 2, but the
single `req.Body.Read` call returned only the first byte — legal for an
io.Reader — and no error; the signature is the digest of the zero-padded
buffer [1, 0] the code actually hashes. -/
def rq6 : HRequest := ⟨"POST", "push", hmacSha256 [7] [1, 0], 2, [1], none⟩

/-- Request with declared length exactly 1 GiB (2^30) whose body read
fails with a non-EOF error. -/
def rq7big : HRequest := ⟨"POST", "push", [9], 1073741824, [], some (.other "read failure")⟩

/-- Request with declared length 0. -/
def rq7zero : HRequest := ⟨"POST", "push", [9], 0, [], none⟩

/-- The routing table `payloadMethods` builds from `mPush` and `mAll`. -/
def tbW : List (String × GoMethod) := [("push", mPush), ("*", mAll)]

/-- Witness script: shell mode, no named arguments. -/
def sW : Tsc.Script := ⟨true, []⟩

/-- The uppercase mapping used by the witnesses: `Char.toUpper`, which
agrees with Go's `unicode.ToUpper` on every character it is applied to
in this file (ASCII letters; names rejected before upper-casing never
reach it). -/
def upW : Char → Char := Char.toUpper

/-- Witness shell outcome: bash exited nonzero, the dump succeeded. -/
def outW : Tsc.ShellOutcome := ⟨some "exit status 1", .ok "webhook/debug042", none, none⟩

/-- Witness rendered buffer: the bytes of "exit 1". -/
def bufW : List Nat := [101, 120, 105, 116, 32, 49]

end Fixtures

namespace GoCrypto

/-- A SHA-256 digest is always 32 bytes. -/
lemma sha256_length (msg : List Nat) : (sha256 msg).length = 32 := by
  simp [sha256, be32]

/-- An HMAC-SHA256 digest is always 32 bytes. -/
lemma hmacSha256_length (key msg : List Nat) : (hmacSha256 key msg).length = 32 :=
  sha256_length _

/-- The HMAC key preprocessing zero-pads short keys, so the one-byte key
[97] and the two-byte key [97, 0] yield the same padded key block. -/
lemma padKey_collision : padKey [97] = padKey [97, 0] := by decide

/-- Hence the two distinct keys produce identical HMAC-SHA256 digests on
every message. -/
lemma hmac_collision (msg : List Nat) : hmacSha256 [97, 0] msg = hmacSha256 [97] msg := by
  unfold hmacSha256
  rw [padKey_collision]

end GoCrypto

namespace Webhook

open GoCrypto

/-- The accepted path of `ServeHTTP`: all checks pass, so the response
is 200 with exactly one dispatch launch carrying the decoded payload. -/
lemma serve_ok (secret : List Nat) (env : Env S P) (req : HRequest) (t : S) (p : P)
    (h1 : req.method = "POST") (h2 : req.event ≠ "") (h3 : req.sig ≠ [])
    (h4 : 0 < req.contentLength) (h5 : req.contentLength ≤ maxPayloadLen)
    (h6 : req.readErr = none ∨ req.readErr = some .eof)
    (h7 : hmacSha256 secret (requestBody req) = req.sig)
    (h8 : env.typeOf req.event = some t)
    (h9 : env.decode t (requestBody req) = some p) :
    serveHTTP secret env req = (200, [(req.event, p)]) := by
  have hlen : ¬ (req.contentLength ≤ 0 ∨ req.contentLength > maxPayloadLen) := by
    rw [not_or]
    exact ⟨by omega, by omega⟩
  rcases h6 with h6 | h6 <;>
    simp [serveHTTP, afterLength, afterRead, verify, h1, h2, h3, hlen, h6, h7, h8, h9]

/-- The signature-mismatch path of `ServeHTTP`: 401 and no dispatch. -/
lemma serve_401 (secret : List Nat) (env : Env S P) (req : HRequest)
    (h1 : req.method = "POST") (h2 : req.event ≠ "") (h3 : req.sig ≠ [])
    (h4 : 0 < req.contentLength) (h5 : req.contentLength ≤ maxPayloadLen)
    (h6 : req.readErr = none ∨ req.readErr = some .eof)
    (h7 : hmacSha256 secret (requestBody req) ≠ req.sig) :
    serveHTTP secret env req = (401, []) := by
  have hlen : ¬ (req.contentLength ≤ 0 ∨ req.contentLength > maxPayloadLen) := by
    rw [not_or]
    exact ⟨by omega, by omega⟩
  rcases h6 with h6 | h6 <;>
    simp [serveHTTP, afterLength, afterRead, verify, h1, h2, h3, hlen, h6, h7]

/-- One step of the construction loop, phrased through the key the head
method claims. -/
lemma aux_cons (nameOf : GoType → Option String) (m : GoMethod)
    (rest : List GoMethod) (acc : List (String × GoMethod)) :
    payloadMethodsAux nameOf (m :: rest) acc =
      match keyOf nameOf m with
      | none => payloadMethodsAux nameOf rest acc
      | some k =>
        if (lookupStr k acc).isSome then .error (dupMsg m)
        else payloadMethodsAux nameOf rest (acc ++ [(k, m)]) := by
  rcases m with ⟨mn, mp, margs⟩
  by_cases hp : mp = ""
  · subst hp
    match margs with
    | [] => simp [payloadMethodsAux, keyOf]
    | [GoType.ptr e] =>
      cases he : nameOf e <;> simp [payloadMethodsAux, keyOf, dupMsg, he]
    | [GoType.str] => simp [payloadMethodsAux, keyOf]
    | [GoType.iface] => simp [payloadMethodsAux, keyOf]
    | [GoType.named i] => simp [payloadMethodsAux, keyOf]
    | [a, b] =>
      by_cases hw : a = GoType.str ∧ b = GoType.iface
      · obtain ⟨ha, hb⟩ := hw
        subst ha
        subst hb
        simp [payloadMethodsAux, keyOf, dupMsg]
      · simp [payloadMethodsAux, keyOf, hw]
    | a :: b :: c :: tl => simp [payloadMethodsAux, keyOf]
  · simp [payloadMethodsAux, keyOf, hp]

/-- Appending to the table preserves a present key. -/
lemma lookupStr_append_isSome (k : String) (acc l : List (String × GoMethod))
    (h : (lookupStr k acc).isSome) : (lookupStr k (acc ++ l)).isSome := by
  induction acc with
  | nil => simp [lookupStr] at h
  | cons p rest ih =>
    by_cases hk : p.1 = k
    · simp [lookupStr, hk]
    · rw [List.cons_append]
      simp only [lookupStr, hk, if_false] at h ⊢
      exact ih h

/-- A successful association-list lookup exhibits a member. -/
lemma lookupStr_mem (k : String) (l : List (String × GoMethod)) (v : GoMethod)
    (h : lookupStr k l = some v) : (k, v) ∈ l := by
  induction l with
  | nil => simp [lookupStr] at h
  | cons p rest ih =>
    by_cases hk : p.1 = k
    · simp [lookupStr, hk] at h
      subst h
      rcases p with ⟨pk, pv⟩
      simp at hk
      subst hk
      exact List.mem_cons_self _ _
    · simp [lookupStr, hk] at h
      exact List.mem_cons_of_mem _ (ih h)

/-- A key just appended to the table is found by lookup. -/
lemma lookupStr_append_self (k : String) (acc : List (String × GoMethod)) (v : GoMethod) :
    (lookupStr k (acc ++ [(k, v)])).isSome := by
  induction acc with
  | nil => simp [lookupStr]
  | cons p rest ih =>
    by_cases hk : p.1 = k
    · simp [lookupStr, hk]
    · simp only [List.cons_append, lookupStr, hk, if_false]
      exact ih

/-- If a key is already in the table and some later method claims it,
the loop inevitably panics. -/
lemma aux_error_of_mem (nameOf : GoType → Option String) (ms : List GoMethod) :
    ∀ acc k, (lookupStr k acc).isSome → (∃ m ∈ ms, keyOf nameOf m = some k) →
      ∃ e, payloadMethodsAux nameOf ms acc = .error e := by
  induction ms with
  | nil =>
    rintro acc k hk ⟨m, hm, _⟩
    simp at hm
  | cons m rest ih =>
    rintro acc k hk ⟨m2, hm2, hkey⟩
    rw [aux_cons]
    cases hkm : keyOf nameOf m with
    | none =>
      rcases List.mem_cons.1 hm2 with h | h
      · subst h
        rw [hkm] at hkey
        exact absurd hkey (by simp)
      · exact ih acc k hk ⟨m2, h, hkey⟩
    | some k2 =>
      by_cases hdup : (lookupStr k2 acc).isSome
      · exact ⟨dupMsg m, by simp [hdup]⟩
      · simp only [hdup, if_false]
        rcases List.mem_cons.1 hm2 with h | h
        · subst h
          rw [hkm] at hkey
          injection hkey with hkk
          subst hkk
          exact absurd hk hdup
        · exact ih _ k (lookupStr_append_isSome k acc _ hk) ⟨m2, h, hkey⟩

/-- Two methods in the list claiming the same key make the whole
construction fail, whatever comes around them. -/
lemma payloadMethods_error_of_dup (nameOf : GoType → Option String)
    (l1 : List GoMethod) (m1 : GoMethod) (l2 : List GoMethod) (m2 : GoMethod)
    (l3 : List GoMethod) (k : String)
    (h1 : keyOf nameOf m1 = some k) (h2 : keyOf nameOf m2 = some k) :
    ∀ acc, ∃ e, payloadMethodsAux nameOf (l1 ++ m1 :: (l2 ++ m2 :: l3)) acc = .error e := by
  induction l1 with
  | nil =>
    intro acc
    rw [List.nil_append, aux_cons, h1]
    by_cases hdup : (lookupStr k acc).isSome
    · exact ⟨dupMsg m1, by simp [hdup]⟩
    · simp only [hdup, if_false]
      exact aux_error_of_mem nameOf _ _ k (lookupStr_append_self k acc m1) ⟨m2, by simp, h2⟩
  | cons h0 t ih =>
    intro acc
    rw [List.cons_append, aux_cons]
    cases hk0 : keyOf nameOf h0 with
    | none => exact ih acc
    | some k0 =>
      by_cases hdup : (lookupStr k0 acc).isSome
      · exact ⟨dupMsg h0, by simp [hdup]⟩
      · simp only [hdup, if_false]
        exact ih _

/-- Every entry of a table the loop completes pairs a key with a method
that claims exactly that key. -/
lemma aux_invariant (nameOf : GoType → Option String) (ms : List GoMethod) :
    ∀ acc t, payloadMethodsAux nameOf ms acc = .ok t →
      (∀ pr ∈ acc, keyOf nameOf pr.2 = some pr.1) →
      ∀ pr ∈ t, keyOf nameOf pr.2 = some pr.1 := by
  induction ms with
  | nil =>
    intro acc t hok hacc
    simp [payloadMethodsAux] at hok
    subst hok
    exact hacc
  | cons m rest ih =>
    intro acc t hok hacc
    rw [aux_cons] at hok
    cases hkm : keyOf nameOf m with
    | none =>
      rw [hkm] at hok
      exact ih acc t hok hacc
    | some k =>
      rw [hkm] at hok
      by_cases hdup : (lookupStr k acc).isSome
      · simp [hdup] at hok
      · simp only [hdup, if_false] at hok
        refine ih _ t hok ?_
        intro pr hpr
        rcases List.mem_append.1 hpr with h | h
        · exact hacc pr h
        · simp at h
          subst h
          exact hkm

/-- Every entry of a completed table comes from the accumulator or from
a method of the list. -/
lemma aux_provenance (nameOf : GoType → Option String) (ms : List GoMethod) :
    ∀ acc t, payloadMethodsAux nameOf ms acc = .ok t →
      ∀ pr ∈ t, pr ∈ acc ∨ pr.2 ∈ ms := by
  induction ms with
  | nil =>
    intro acc t hok pr hpr
    simp [payloadMethodsAux] at hok
    subst hok
    exact Or.inl hpr
  | cons m rest ih =>
    intro acc t hok pr hpr
    rw [aux_cons] at hok
    cases hkm : keyOf nameOf m with
    | none =>
      rw [hkm] at hok
      rcases ih acc t hok pr hpr with h | h
      · exact Or.inl h
      · exact Or.inr (List.mem_cons_of_mem _ h)
    | some k =>
      rw [hkm] at hok
      by_cases hdup : (lookupStr k acc).isSome
      · simp [hdup] at hok
      · simp only [hdup, if_false] at hok
        rcases ih _ t hok pr hpr with h | h
        · rcases List.mem_append.1 h with h2 | h2
          · exact Or.inl h2
          · simp at h2
            subst h2
            exact Or.inr (List.mem_cons_self _ _)
        · exact Or.inr (List.mem_cons_of_mem _ h)

/-- A method that claims no key is invisible to the construction loop:
removing it changes nothing. -/
lemma aux_erase_skipped (nameOf : GoType → Option String) (m : GoMethod)
    (hk : keyOf nameOf m = none) (l1 : List GoMethod) :
    ∀ l2 acc, payloadMethodsAux nameOf (l1 ++ m :: l2) acc =
      payloadMethodsAux nameOf (l1 ++ l2) acc := by
  induction l1 with
  | nil =>
    intro l2 acc
    rw [List.nil_append, List.nil_append, aux_cons, hk]
  | cons h0 t ih =>
    intro l2 acc
    rw [List.cons_append, List.cons_append, aux_cons, aux_cons]
    cases hk0 : keyOf nameOf h0 with
    | none => exact ih l2 acc
    | some k0 =>
      by_cases hdup : (lookupStr k0 acc).isSome
      · simp [hdup]
      · simp only [hdup, if_false]
        exact ih l2 _

/-- Inversion of `keyOf`: a claimed key belongs to an exported method
that is either a specific handler for a registered payload type or the
(string, interface\x7b\x7d) wildcard. -/
lemma keyOf_inversion (nameOf : GoType → Option String) (m : GoMethod) (k : String)
    (h : keyOf nameOf m = some k) :
    m.pkgPath = "" ∧
      ((∃ g, m.args = [.ptr g] ∧ nameOf g = some k) ∨ (m.args = [.str, .iface] ∧ k = "*")) := by
  rcases m with ⟨mn, mp, margs⟩
  by_cases hp : mp = ""
  · subst hp
    refine ⟨rfl, ?_⟩
    match margs with
    | [] => simp [keyOf] at h
    | [GoType.ptr g] =>
      simp [keyOf] at h
      exact Or.inl ⟨g, rfl, h⟩
    | [GoType.str] => simp [keyOf] at h
    | [GoType.iface] => simp [keyOf] at h
    | [GoType.named i] => simp [keyOf] at h
    | [a, b] =>
      by_cases hw : a = GoType.str ∧ b = GoType.iface
      · obtain ⟨ha, hb⟩ := hw
        subst ha
        subst hb
        simp [keyOf] at h
        exact Or.inr ⟨rfl, h.symm⟩
      · simp [keyOf, hw] at h
    | a :: b :: c :: tl => simp [keyOf] at h
  · simp [keyOf, hp] at h

/-- Whatever else the request looks like, a body whose digest differs
from the signature header never produces a dispatch launch. -/
lemma snd_empty_of_bad_sig (secret : List Nat) (env : Env S P) (req : HRequest)
    (h : hmacSha256 secret (requestBody req) ≠ req.sig) :
    (serveHTTP secret env req).2 = [] := by
  have hv : verify secret req.sig (requestBody req) = false := by
    simp [verify, h]
  unfold serveHTTP
  split
  · rfl
  split
  · rfl
  split
  · rfl
  unfold afterLength
  split
  · rfl
  unfold afterRead
  simp [hv]

end Webhook


namespace Tsc

/-- On an even-length list of well-formed flag pairs the parsing loop
succeeds and collects exactly the derived entries in order. -/
lemma parseArgs_ok_of_wf (up : Char → Char) (args : List String) :
    args.length % 2 = 0 → (∀ n ∈ evenNames args, wfFlag n = true) →
    parseArgs up args = .ok (pairsOf up args) := by
  induction args using evenNames.induct with
  | case1 =>
    intro _ _
    simp [parseArgs, pairsOf]
  | case2 n v rest ih =>
    intro hlen hwf
    have hn : wfFlag n = true := hwf n (by simp [evenNames])
    have hlen2 : rest.length % 2 = 0 := by
      simp [List.length_cons] at hlen
      omega
    have hrest : parseArgs up rest = .ok (pairsOf up rest) := by
      refine ih hlen2 ?_
      intro x hx
      exact hwf x (by simp [evenNames, hx])
    simp only [wfFlag, Bool.decide_and, Bool.and_eq_true, decide_eq_true_eq] at hn
    obtain ⟨hn1, hn2⟩ := hn
    simp [parseArgs, hn1, hn2, hrest, pairsOf]
  | case3 n =>
    intro hlen _
    simp at hlen

/-- A malformed flag name anywhere at an even index makes the parsing
loop fail. -/
lemma parseArgs_error_of_bad (up : Char → Char) (args : List String) :
    (∃ n ∈ evenNames args, wfFlag n = false) → ∃ e, parseArgs up args = .error e := by
  induction args using evenNames.induct with
  | case1 =>
    rintro ⟨n, hn, _⟩
    simp [evenNames] at hn
  | case2 n v rest ih =>
    rintro ⟨x, hx, hbad⟩
    by_cases hA : n.length < 2 ∨ n.front ≠ '-'
    · exact ⟨"invalid flag name: " ++ n, by simp [parseArgs, hA]⟩
    · by_cases hB : (n.drop 1).front = '�'
      · exact ⟨"invalid flag name: " ++ n, by simp [parseArgs, hA, hB]⟩
      · have hxr : x ∈ evenNames rest := by
          simp [evenNames] at hx
          rcases hx with hx | hx
          · subst hx
            have hgood : wfFlag x = true := by
              simp only [wfFlag, decide_eq_true_eq]
              exact ⟨hA, hB⟩
            rw [hgood] at hbad
            exact absurd hbad (by simp)
          · exact hx
        obtain ⟨e, he⟩ := ih ⟨x, hxr, hbad⟩
        exact ⟨e, by simp [parseArgs, hA, hB, he]⟩
  | case3 n =>
    intro _
    exact ⟨"number of arguments for template script must be even", by simp [parseArgs]⟩

end Tsc

section Claims

open GoCrypto

/-- C1 (amended): for every body `B` and non-empty secret `S`,
`verify(B, sign(B, S), S)` succeeds, and verification is exactly
byte-equality of the raw signature-header bytes against the raw
HMAC-SHA256 digest of the body — no prefix stripping, no hex decoding —
so a signature is accepted precisely when it equals that digest. A
signature produced with a different secret is therefore rejected exactly
when the two digests differ; it is not rejected for every `S' ≠ S`
(secrets equal up to zero-padding within the HMAC block collide, see the
counterexample). -/
theorem c1_sign_verify (B S : List Nat) (hS : S ≠ []) :
    Webhook.verify S (Webhook.sign S B) B = true ∧
      ∀ sig, Webhook.verify S sig B = true ↔ sig = hmacSha256 S B := by
  constructor
  · show (hmacSha256 S B == hmacSha256 S B) = true
    exact beq_self_eq_true _
  · intro sig
    show (hmacSha256 S B == sig) = true ↔ sig = hmacSha256 S B
    rw [beq_iff_eq]
    exact eq_comm

/-- Witness for C1 at body [104, 105] and secret [97]. -/
theorem c1_sign_verify_witness :
    Webhook.verify [97] (Webhook.sign [97] [104, 105]) [104, 105] = true :=
  (c1_sign_verify [104, 105] [97] (by decide)).1

/-- C1 counterexample: the distinct non-empty secrets [97] and [97, 0]
produce the same HMAC-SHA256 signature (the key is zero-padded to the
block size), so verifying under [97] a signature signed with
[97, 0] ≠ [97] succeeds, where the claim demands failure. -/
theorem c1_counterexample :
    ([97, 0] : List Nat) ≠ [97] ∧
      Webhook.verify [97] (Webhook.sign [97, 0] [104, 105]) [104, 105] = true := by
  refine ⟨by decide, ?_⟩
  simp [Webhook.verify, Webhook.sign, hmac_collision]

/-- C2: a POST request with non-empty event and signature headers, an
in-bounds declared length, a readable body whose HMAC-SHA256 digest
under the secret equals the raw signature-header bytes, a registered
event name and a decodable body is answered 200 with exactly one
asynchronous dispatch launch carrying the decoded payload. -/
theorem c2_accept_dispatch (secret : List Nat) (env : Webhook.Env S P)
    (req : Webhook.HRequest) (t : S) (p : P)
    (h1 : req.method = "POST") (h2 : req.event ≠ "") (h3 : req.sig ≠ [])
    (h4 : 0 < req.contentLength) (h5 : req.contentLength ≤ Webhook.maxPayloadLen)
    (h6 : req.readErr = none ∨ req.readErr = some .eof)
    (h7 : hmacSha256 secret (Webhook.requestBody req) = req.sig)
    (h8 : env.typeOf req.event = some t)
    (h9 : env.decode t (Webhook.requestBody req) = some p) :
    Webhook.serveHTTP secret env req = (200, [(req.event, p)]) :=
  Webhook.serve_ok secret env req t p h1 h2 h3 h4 h5 h6 h7 h8 h9

/-- Witness for C2: a correctly signed one-byte "push" request. -/
theorem c2_accept_dispatch_witness :
    Webhook.serveHTTP [7] envW rq2 = (200, [("push", 42)]) := by
  have hbody : Webhook.requestBody rq2 = [5] := by decide
  have h3 : rq2.sig ≠ [] := by
    show hmacSha256 [7] [5] ≠ []
    intro h
    have h2 := congrArg List.length h
    rw [hmacSha256_length] at h2
    simp at h2
  have h7 : hmacSha256 [7] (Webhook.requestBody rq2) = rq2.sig := by
    rw [hbody]
    rfl
  have h8 : envW.typeOf rq2.event = some "PushEvent" := rfl
  have h9 : envW.decode "PushEvent" (Webhook.requestBody rq2) = some 42 := by
    rw [hbody]
    rfl
  exact c2_accept_dispatch [7] envW rq2 "PushEvent" 42 rfl (by decide) h3 (by decide)
    (by decide) (Or.inl rfl) h7 h8 h9

/-- C3: a request passing the method, header, length and read stages
whose signature-header bytes differ from the body's HMAC-SHA256 digest
is answered 401 with an empty dispatch list; moreover, whatever routing
table is in place, the handler invocations of such a request are none at
all. -/
theorem c3_bad_signature (secret : List Nat) (env : Webhook.Env S P)
    (req : Webhook.HRequest)
    (h1 : req.method = "POST") (h2 : req.event ≠ "") (h3 : req.sig ≠ [])
    (h4 : 0 < req.contentLength) (h5 : req.contentLength ≤ Webhook.maxPayloadLen)
    (h6 : req.readErr = none ∨ req.readErr = some .eof)
    (h7 : hmacSha256 secret (Webhook.requestBody req) ≠ req.sig) :
    Webhook.serveHTTP secret env req = (401, []) ∧
      ∀ tb : List (String × Webhook.GoMethod),
        ((Webhook.serveHTTP secret env req).2.map
          (fun pr => Webhook.call tb pr.1 pr.2)).flatten = ([] : List (Webhook.Inv P)) := by
  have h := Webhook.serve_401 secret env req h1 h2 h3 h4 h5 h6 h7
  refine ⟨h, ?_⟩
  intro tb
  rw [h]
  simp

/-- Witness for C3: the one-byte signature [0] can never equal a 32-byte
digest. -/
theorem c3_bad_signature_witness :
    Webhook.serveHTTP [7] envW rq3 = (401, []) := by
  refine (c3_bad_signature [7] envW rq3 rfl (by decide) (by decide) (by decide) (by decide)
    (Or.inl rfl) ?_).1
  show hmacSha256 [7] (Webhook.requestBody rq3) ≠ [0]
  intro h
  have h2 := congrArg List.length h
  rw [hmacSha256_length] at h2
  simp at h2

end Claims

section Claims2

open GoCrypto

/-- C4: for a routing table built by `payloadMethods` over a registry
that never names an event "*" and a dispatched event name (registry
names never being "*"): an entry for the event name is a specific
handler and it alone is invoked, with the payload; otherwise a "*" entry
is the wildcard handler and it alone is invoked, with the event name
passed through unchanged and the payload; otherwise only the "ping"
event gets the built-in log action, and any other event invokes
nothing. -/
theorem c4_routing (nameOf : Webhook.GoType → Option String) (ms : List Webhook.GoMethod)
    (tb : List (String × Webhook.GoMethod)) (event : String) (p : P)
    (hreg : ∀ g, nameOf g ≠ some "*")
    (hok : Webhook.payloadMethods nameOf ms = .ok tb)
    (hev : event ≠ "*") :
    (∀ m, Webhook.lookupStr event tb = some m →
      (m.pkgPath = "" ∧ ∃ g, m.args = [.ptr g] ∧ nameOf g = some event) ∧
        Webhook.call tb event p = [.specific m p]) ∧
    (Webhook.lookupStr event tb = none → ∀ w, Webhook.lookupStr "*" tb = some w →
      (w.pkgPath = "" ∧ w.args = [.str, .iface]) ∧
        Webhook.call tb event p = [.wildcard w event p]) ∧
    (Webhook.lookupStr event tb = none → Webhook.lookupStr "*" tb = none →
      Webhook.call tb event p = if event = "ping" then [.pingDefault] else []) := by
  have hinv : ∀ pr ∈ tb, Webhook.keyOf nameOf pr.2 = some pr.1 :=
    Webhook.aux_invariant nameOf ms [] tb hok (by intro pr hpr; simp at hpr)
  refine ⟨?_, ?_, ?_⟩
  · intro m hm
    have hkey := hinv (event, m) (Webhook.lookupStr_mem _ _ _ hm)
    obtain ⟨hpkg, hcase⟩ := Webhook.keyOf_inversion nameOf m event hkey
    rcases hcase with ⟨g, hg, hng⟩ | ⟨_, hstar⟩
    · exact ⟨⟨hpkg, g, hg, hng⟩, by simp [Webhook.call, hm]⟩
    · exact absurd hstar hev
  · intro hnone w hw
    have hkey := hinv ("*", w) (Webhook.lookupStr_mem _ _ _ hw)
    obtain ⟨hpkg, hcase⟩ := Webhook.keyOf_inversion nameOf w "*" hkey
    rcases hcase with ⟨g, hg, hng⟩ | ⟨hargs, _⟩
    · exact absurd hng (hreg g)
    · exact ⟨⟨hpkg, hargs⟩, by simp [Webhook.call, hnone, hw]⟩
  · intro hnone hnos
    simp [Webhook.call, hnone, hnos]

/-- Witness for C4 mirroring the spec example: with a Push method and a
wildcard method, event "push" invokes only the specific handler and
event "gollum" invokes only the wildcard with the name unchanged. -/
theorem c4_routing_witness :
    Webhook.call tbW "push" (0 : Nat) = [.specific mPush 0] ∧
      Webhook.call tbW "gollum" (0 : Nat) = [.wildcard mAll "gollum" 0] := by
  have hreg : ∀ g, nameOfW g ≠ some "*" := by
    intro g
    unfold nameOfW
    split
    · simp
    split
    · simp
    · simp
  have hok : Webhook.payloadMethods nameOfW [mPush, mAll] = .ok tbW := rfl
  constructor
  · exact ((c4_routing nameOfW [mPush, mAll] tbW "push" 0 hreg hok (by decide)).1
      mPush rfl).2
  · exact ((c4_routing nameOfW [mPush, mAll] tbW "gollum" 0 hreg hok (by decide)).2.1
      rfl mAll rfl).2

/-- C5: whenever two exported methods of the receiver claim the same
routing key — the same registered event name, or both the wildcard key
"*" — `payloadMethods` panics at construction time instead of picking
one of them. -/
theorem c5_duplicate_error (nameOf : Webhook.GoType → Option String)
    (l1 : List Webhook.GoMethod) (m1 : Webhook.GoMethod) (l2 : List Webhook.GoMethod)
    (m2 : Webhook.GoMethod) (l3 : List Webhook.GoMethod) (k : String)
    (h1 : Webhook.keyOf nameOf m1 = some k) (h2 : Webhook.keyOf nameOf m2 = some k) :
    ∃ e, Webhook.payloadMethods nameOf (l1 ++ m1 :: (l2 ++ m2 :: l3)) = .error e :=
  Webhook.payloadMethods_error_of_dup nameOf l1 m1 l2 m2 l3 k h1 h2 []

/-- Witness for C5: two methods both taking *PushEvent make the
construction fail. -/
theorem c5_duplicate_error_witness :
    (Webhook.payloadMethods nameOfW [mPush, mPush2]).isOk = false := by
  obtain ⟨e, he⟩ := c5_duplicate_error nameOfW [] mPush [] mPush2 [] "push" rfl rfl
  rw [show ([] ++ mPush :: ([] ++ mPush2 :: [])) = [mPush, mPush2] from rfl] at he
  rw [he]
  rfl

/-- C7 counterexample: the declared length 2^30 = 1 GiB is not "below"
the bound, yet the request is not rejected with 400 at the length check:
it proceeds to the body read, whose failure yields 500. -/
theorem c7_counterexample :
    rq7big.contentLength = 1024 * 1024 * 1024 ∧
      Webhook.serveHTTP [7] envW rq7big = (500, []) := ⟨rfl, rfl⟩

/-- C7 (amended): after the method and header checks, a declared content
length that is positive and at most 2^30 (1 GiB, bound inclusive)
proceeds to the body-read stage, and any other declared length is
rejected with 400 before the body is read. -/
theorem c7_length_check (secret : List Nat) (env : Webhook.Env S P)
    (req : Webhook.HRequest)
    (h1 : req.method = "POST") (h2 : req.event ≠ "") (h3 : req.sig ≠ []) :
    ((0 < req.contentLength ∧ req.contentLength ≤ Webhook.maxPayloadLen) →
      Webhook.serveHTTP secret env req = Webhook.afterLength secret env req) ∧
    ((req.contentLength ≤ 0 ∨ Webhook.maxPayloadLen < req.contentLength) →
      Webhook.serveHTTP secret env req = (400, [])) := by
  constructor
  · rintro ⟨ha, hb⟩
    have hlen : ¬ (req.contentLength ≤ 0 ∨ req.contentLength > Webhook.maxPayloadLen) := by
      rw [not_or]
      exact ⟨by omega, by omega⟩
    simp [Webhook.serveHTTP, h1, h2, h3, hlen]
  · intro hc
    have hlen : req.contentLength ≤ 0 ∨ req.contentLength > Webhook.maxPayloadLen := by
      rcases hc with hc | hc
      · exact Or.inl hc
      · exact Or.inr hc
    simp [Webhook.serveHTTP, h1, h2, h3, hlen]

/-- Witness for amended C7: length 2^30 proceeds to the body read,
length 0 is rejected with 400. -/
theorem c7_length_check_witness :
    Webhook.serveHTTP [7] envW rq7big = Webhook.afterLength [7] envW rq7big ∧
      Webhook.serveHTTP [7] envW rq7zero = (400, []) := by
  constructor
  · exact (c7_length_check [7] envW rq7big rfl (by decide) (by decide)).1
      ⟨by decide, by decide⟩
  · exact (c7_length_check [7] envW rq7zero rfl (by decide) (by decide)).2
      (Or.inl (by decide))

end Claims2

section Claims3

open GoCrypto

/-- C6: behavior of the code at the failing input `rq6` — a POST "push"
request declaring 2 body bytes whose single `req.Body.Read` call
returned only 1 byte (legal for an io.Reader) and no error. The claim
says the body-read step reads exactly the declared number of bytes
before signature verification; the code instead ignores the returned
count, verifies the HMAC over the zero-padded buffer [1, 0], accepts the
request and dispatches the payload decoded from that buffer. -/
theorem c6_single_read_behavior :
    rq6.contentLength = 2 ∧ rq6.readBytes.length = 1 ∧
      Webhook.serveHTTP [7] envW rq6 = (200, [("push", 7)]) := by
  refine ⟨rfl, rfl, ?_⟩
  have hbody : Webhook.requestBody rq6 = [1, 0] := by decide
  have h3 : rq6.sig ≠ [] := by
    show hmacSha256 [7] [1, 0] ≠ []
    intro h
    have h2 := congrArg List.length h
    rw [hmacSha256_length] at h2
    simp at h2
  have h7 : hmacSha256 [7] (Webhook.requestBody rq6) = rq6.sig := by
    rw [hbody]
    rfl
  have h8 : envW.typeOf rq6.event = some "PushEvent" := rfl
  have h9 : envW.decode "PushEvent" (Webhook.requestBody rq6) = some 7 := by
    rw [hbody]
    rfl
  exact Webhook.serve_ok [7] envW rq6 "PushEvent" 7 rfl (by decide) h3 (by decide)
    (by decide) (Or.inl rfl) h7 h8 h9

/-- C8: in shell mode, when the render succeeds and bash fails, `run`
logs exactly one failure line; if the dump fully succeeds the message
references the dump file whose recorded content is byte-for-byte the
rendered buffer; if creating, copying to, or closing the dump file
fails, the shell error and the dump failure are reported together in the
one message. `webhookRun` returns only logs and files — no error reaches
its caller. -/
theorem c8_shell_failure_dump (s : Tsc.Script) (render : Except String (List Nat))
    (out : Tsc.ShellOutcome) (buf : List Nat) (err : String)
    (hbash : s.bash = true) (hrender : render = .ok buf) (hrun : out.runErr = some err) :
    (∀ fname, out.tmpFile = .ok fname → out.copyErr = none → out.closeErr = none →
      Tsc.webhookRun s render out =
        (["ERROR template script error: " ++ fname ++ ": failed with: " ++ err],
          [(fname, buf)])) ∧
    (∀ e, out.tmpFile = .error e →
      Tsc.webhookRun s render out =
        (["ERROR template script error: " ++ err ++ " (failed to dump script file: " ++
          e ++ ")"], [])) ∧
    (∀ fname n emsg, out.tmpFile = .ok fname → out.copyErr = some (n, emsg) →
      Tsc.webhookRun s render out =
        (["ERROR template script error: " ++ err ++ " (failed to dump script file: " ++
          emsg ++ ")"], [(fname, buf.take n)])) ∧
    (∀ fname emsg, out.tmpFile = .ok fname → out.copyErr = none →
      out.closeErr = some emsg →
      Tsc.webhookRun s render out =
        (["ERROR template script error: " ++ err ++ " (failed to dump script file: " ++
          emsg ++ ")"], [(fname, buf)])) := by
  subst hrender
  refine ⟨?_, ?_, ?_, ?_⟩
  · intro fname htmp hcopy hclose
    simp [Tsc.webhookRun, Tsc.runBash, hbash, hrun, htmp, hcopy, hclose, String.append_assoc]
  · intro e htmp
    simp [Tsc.webhookRun, Tsc.runBash, hbash, hrun, htmp, String.append_assoc]
  · intro fname n emsg htmp hcopy
    simp [Tsc.webhookRun, Tsc.runBash, hbash, hrun, htmp, hcopy, String.append_assoc]
  · intro fname emsg htmp hcopy hclose
    simp [Tsc.webhookRun, Tsc.runBash, hbash, hrun, htmp, hcopy, hclose, String.append_assoc]

/-- Witness for C8: rendered buffer "exit 1", bash exits 1, dump
succeeds; the log line names the dump file and the file holds the
buffer. -/
theorem c8_shell_failure_dump_witness :
    Tsc.webhookRun sW (.ok bufW) outW =
      (["ERROR template script error: webhook/debug042: failed with: exit status 1"],
        [("webhook/debug042", bufW)]) :=
  (c8_shell_failure_dump sW (.ok bufW) outW bufW "exit status 1" rfl rfl rfl).1
    "webhook/debug042" rfl rfl rfl

/-- C9 counterexample: (i) the flag name "-�" is the prefix '-' followed
by one character, which the claim declares well-formed, yet `New`
rejects it (`DecodeRuneInString` reports `RuneError` for the replacement
character); (ii) with two pairs both deriving the key "A", the pair
("-a", "1") leaves no map entry holding "1" — the later pair overwrites
it, so lookup yields "2". -/
theorem c9_counterexample :
    Tsc.scriptNew upW "deploy.sh" ["-�", "x"] = .error "invalid flag name: -�" ∧
      Tsc.scriptNew upW "deploy.sh" ["-a", "1", "-a", "2"] =
        .ok ⟨true, [("A", "1"), ("A", "2")]⟩ ∧
      Tsc.lookupLast [("A", "1"), ("A", "2")] "A" = some "2" := by
  refine ⟨?_, ?_, ?_⟩ <;> rfl

/-- C9 (amended): construction returns a ConfigError for every
odd-length argument list; on even-length lists each name at an even
index must be '-' followed by at least one character that is not the
Unicode replacement character (otherwise ConfigError), and the resulting
map holds, in insertion order, one entry per pair with the key obtained
by stripping '-' and upper-casing the first character with
`unicode.ToUpper` (the mapping `up`, an external standard-library
collaborator) and the value the following element; pairs deriving an
equal key are overwritten by the last one (map lookup is
`lookupLast`). -/
theorem c9_args_parsing (up : Char → Char) (file : String) (args : List String) :
    (args.length % 2 = 1 →
      Tsc.scriptNew up file args = .error "number of arguments for template script must be even") ∧
    (args.length % 2 = 0 → (∀ n ∈ Tsc.evenNames args, Tsc.wfFlag n = true) →
      Tsc.scriptNew up file args =
        .ok ⟨Tsc.hasSuffix file ".sh" || Tsc.hasSuffix file ".bash", Tsc.pairsOf up args⟩) ∧
    (args.length % 2 = 0 → (∃ n ∈ Tsc.evenNames args, Tsc.wfFlag n = false) →
      ∃ e, Tsc.scriptNew up file args = .error e) := by
  refine ⟨?_, ?_, ?_⟩
  · intro h
    simp [Tsc.scriptNew, h]
  · intro h hwf
    have hname : ¬ (args.length % 2 = 1) := by omega
    simp [Tsc.scriptNew, hname, Tsc.parseArgs_ok_of_wf up args h hwf]
  · intro h hbad
    have hname : ¬ (args.length % 2 = 1) := by omega
    obtain ⟨e, he⟩ := Tsc.parseArgs_error_of_bad up args hbad
    exact ⟨e, by simp [Tsc.scriptNew, hname, he]⟩

/-- Witness for amended C9 matching the spec example: ["-token", "t1"]
parses into the single entry ("Token", "t1"). -/
theorem c9_args_parsing_witness :
    Tsc.scriptNew upW "deploy.sh" ["-token", "t1"] = .ok ⟨true, [("Token", "t1")]⟩ := by
  have h := (c9_args_parsing upW "deploy.sh" ["-token", "t1"]).2.1 (by decide) (by decide)
  exact h

/-- C10: an exported method whose shape matches neither handler form
claims no routing key; `payloadMethods` treats it as absent —
construction gives the very same result with or without it (in
particular it still succeeds when it otherwise would), and no entry of a
completed table invokes it. -/
theorem c10_mismatched_skipped (nameOf : Webhook.GoType → Option String)
    (m : Webhook.GoMethod) (hm : m.pkgPath = "") (hk : Webhook.keyOf nameOf m = none)
    (l1 l2 : List Webhook.GoMethod) :
    Webhook.payloadMethods nameOf (l1 ++ m :: l2) = Webhook.payloadMethods nameOf (l1 ++ l2) ∧
      ∀ tb, Webhook.payloadMethods nameOf (l1 ++ m :: l2) = .ok tb → m ∉ l1 ++ l2 →
        ∀ pr ∈ tb, pr.2 ≠ m := by
  have herase : Webhook.payloadMethods nameOf (l1 ++ m :: l2) =
      Webhook.payloadMethods nameOf (l1 ++ l2) :=
    Webhook.aux_erase_skipped nameOf m hk l1 l2 []
  refine ⟨herase, ?_⟩
  intro tb hok hmem pr hpr hpr2
  rw [herase] at hok
  have hprov := Webhook.aux_provenance nameOf (l1 ++ l2) [] tb hok pr hpr
  rcases hprov with hcase | hcase
  · simp at hcase
  · rw [hpr2] at hcase
    exact hmem hcase

/-- Witness for C10: the ill-shaped exported method `mBad` between
`mPush` and `mAll` changes nothing about the constructed table. -/
theorem c10_mismatched_skipped_witness :
    Webhook.payloadMethods nameOfW [mPush, mBad, mAll] =
      Webhook.payloadMethods nameOfW [mPush, mAll] :=
  (c10_mismatched_skipped nameOfW mBad rfl rfl [mPush] [mAll]).1

end Claims3
